import Mathlib

/-!
Shallow embedding of the rule-based chat agent: the agent module bundled with
`src/components/Chat.tsx` (the `runAgent` section, i.e. `@/lib/agent`) and the
HTTP handler in `src/app/api/chat/route.ts`.

Strings are Lean `String`s (lists of characters).  JavaScript regular
expression `test`s are modelled by explicit character scans over `String.data`.
The character class `\s` is modelled by its ASCII members; the JavaScript
class additionally contains Unicode space characters, so the embedding is
faithful on ASCII text.  The third-party `expr-eval` parser and the JavaScript
number formatters are not code of this repository and are modelled as abstract
parameters (`JsEnv`).
-/

/-- ASCII members of the JavaScript whitespace class `\s` (also used by
`String.prototype.trim`). -/
def isJsSpace (c : Char) : Bool :=
  c == ' ' || c == '\t' || c == '\n' || c == '\r' || c == '\x0b' || c == '\x0c'

/-- `String.prototype.trim`: drop leading and trailing whitespace. -/
def trimChars (cs : List Char) : List Char :=
  ((cs.dropWhile isJsSpace).reverse.dropWhile isJsSpace).reverse

/-- Lower-cased character data of a string, for the case-insensitive (`/i`)
regular expression tests. -/
def lowerData (s : String) : List Char :=
  s.data.map Char.toLower

/-- Whether `pat` occurs as contiguous run inside `cs`. -/
def isInfixB (pat : List Char) : List Char → Bool
  | [] => List.isPrefixOf pat []
  | c :: rest => List.isPrefixOf pat (c :: rest) || isInfixB pat rest

/-- `test` of a case-insensitive literal alternative: the pattern occurs in the
lower-cased subject (all patterns below are written in lower case). -/
def containsCI (s : String) (pat : String) : Bool :=
  isInfixB (lowerData pat) (lowerData s)

/-- The character class `[0-9+\-*\/%^().\s]` of the arithmetic rule in
`classifyIntent` (note that it contains the digits and whitespace). -/
def isMathMid (c : Char) : Bool :=
  c.isDigit || c == '+' || c == '-' || c == '*' || c == '/' || c == '%' ||
    c == '^' || c == '(' || c == ')' || c == '.' || isJsSpace c

/-- Scanner for the tail `[0-9+\-*\/%^().\s]+[0-9]` of the arithmetic pattern,
entered after a leading digit; `seen` records whether at least one middle
character has already been consumed. -/
def scanMid : List Char → Bool → Bool
  | [], _ => false
  | c :: rest, seen =>
    if seen && c.isDigit then true
    else if isMathMid c then scanMid rest true
    else false

/-- `test` of `/[0-9][0-9+\-*\/%^().\s]+[0-9]/`: a match may start at any
position. -/
def mathPatternTest : List Char → Bool
  | [] => false
  | c :: rest => (c.isDigit && scanMid rest false) || mathPatternTest rest

/-- A line-terminator character, which the regular expression `.` does not
match. -/
def isLineTerm (c : Char) : Bool :=
  c == '\n' || c == '\r' || c == '\u2028' || c == '\u2029'

/-- After the literal `order`, scan for the literal `tasks`, skipping
non-line-terminator characters (the `.*` of `order.*tasks`). -/
def tasksAfterDot : List Char → Bool
  | [] => false
  | c :: rest =>
    List.isPrefixOf ("tasks").data (c :: rest) || (!isLineTerm c && tasksAfterDot rest)

/-- `test` of the `order.*tasks` alternative (on lower-cased data). -/
def orderTasksTest : List Char → Bool
  | [] => false
  | c :: rest =>
    (List.isPrefixOf ("order").data (c :: rest) && tasksAfterDot (List.drop 5 (c :: rest))) ||
      orderTasksTest rest

/-- `test` of `/plan|schedule|roadmap|steps|strategy/i`. -/
def planTest (s : String) : Bool :=
  containsCI s ("plan") || containsCI s ("schedule") || containsCI s ("roadmap") ||
    containsCI s ("steps") || containsCI s ("strategy")

/-- `test` of `/idea|ideas|brainstorm|creative|names?/i`. -/
def brainstormTest (s : String) : Bool :=
  containsCI s ("idea") || containsCI s ("ideas") || containsCI s ("brainstorm") ||
    containsCI s ("creative") || containsCI s ("name")

/-- `test` of `/summarise|summarize|recap|tl;dr/i`. -/
def summarizeTest (s : String) : Bool :=
  containsCI s ("summarise") || containsCI s ("summarize") || containsCI s ("recap") ||
    containsCI s ("tl;dr")

/-- `test` of `/prioriti[sz]e|ranking|order.*tasks|what to do first/i`. -/
def prioritizeTest (s : String) : Bool :=
  containsCI s ("prioritise") || containsCI s ("prioritize") || containsCI s ("ranking") ||
    orderTasksTest (lowerData s) || containsCI s ("what to do first")

/-- The closed intent enumeration. -/
inductive Intent
  | math
  | plan
  | brainstorm
  | summarize
  | prioritize
  | insight
deriving DecidableEq

/-- Display name of an intent, as interpolated into the intent-detection
step. -/
def intentName : Intent → String
  | .math => "math"
  | .plan => "plan"
  | .brainstorm => "brainstorm"
  | .summarize => "summarize"
  | .prioritize => "prioritize"
  | .insight => "insight"

/-- `classifyIntent`: the ordered regular-expression chain, first match
wins. -/
def classifyIntent (input : String) : Intent :=
  if mathPatternTest input.data then .math
  else if planTest input then .plan
  else if brainstormTest input then .brainstorm
  else if summarizeTest input then .summarize
  else if prioritizeTest input then .prioritize
  else .insight

/-- `join("\n")` on a list of lines. -/
def joinLines : List String → String
  | [] => ""
  | [s] => s
  | s :: rest => s ++ "\n" ++ joinLines rest

/-- The character class `[0-9+\-*\/%^().,\s]` kept by the first `replace` of
`cleanExpression`. -/
def isExprKeep (c : Char) : Bool :=
  c.isDigit || c == '+' || c == '-' || c == '*' || c == '/' || c == '%' ||
    c == '^' || c == '(' || c == ')' || c == '.' || c == ',' || isJsSpace c

/-- The sanitized candidate of `cleanExpression`: keep only the expression
character class, then delete the commas. -/
def sanitizeExpr (input : String) : List Char :=
  (input.data.filter isExprKeep).filter (fun c => c != ',')

/-- `cleanExpression`: `none` when the sanitized candidate is blank or has no
digit; otherwise the (untrimmed) candidate. -/
def cleanExpression (input : String) : Option String :=
  let candidate := sanitizeExpr input
  if (trimChars candidate).isEmpty then none
  else if !candidate.any Char.isDigit then none
  else some (String.mk candidate)

/-- A JavaScript number as the evaluator observes it: NaN, an infinity, or a
finite value (modelled as a rational). -/
inductive JsNum
  | nan
  | inf (neg : Bool)
  | finite (val : ℚ)

/-- A JavaScript value returned by evaluation: a number, or some value that is
not a number. -/
inductive JsValue
  | num (n : JsNum)
  | other

/-- Abstract model of the host facilities `calculateExpression` delegates to,
none of which are code of this repository: the third-party `expr-eval`
`Parser.evaluate` (which may throw, modelled by `Except.error`, or return any
value) and the two number formatters (`toLocaleString` with at most 4 fraction
digits, and `toPrecision(8)` followed by the `Number(...)` round-trip). -/
structure JsEnv where
  evalExpr : String → Except String JsValue
  localeFmt : ℚ → String
  precisionFmt : ℚ → String

/-- Failure message of `calculateExpression` when no solvable expression is
detected. -/
def errNoExpr : String :=
  "I could not detect a solvable expression. Try something like `3 * (12 + 4)`."

/-- Failure message of `calculateExpression` when the underlying evaluation
throws. -/
def errMalformed : String :=
  "That expression seems malformed. Try using only numbers and standard operators."

/-- Message of `calculateExpression` for a result that is not a finite
number. -/
def errNonNumeric : String :=
  "That expression resolves to a non-numeric result, which I do not support yet."

/-- `calculateExpression`: sanitize, evaluate, and format; every failure is
returned as an explanatory message. -/
def calculateExpression (env : JsEnv) (input : String) : String :=
  match cleanExpression input with
  | none => errNoExpr
  | some expression =>
    match env.evalExpr expression with
    | .error _ => errMalformed
    | .ok (.num (.finite result)) =>
      let formatted :=
        if |result| ≥ 1000 then env.localeFmt result else env.precisionFmt result
      "The expression " ++ String.mk (trimChars expression.data) ++
        " evaluates to **" ++ formatted ++ "**."
    | .ok _ => errNonNumeric

/-- Render `(task, index) => ` backtick `${index + 1}. ${task}` over a list. -/
def numberLines (ts : List String) : List String :=
  ts.enum.map (fun p => toString (p.1 + 1) ++ ". " ++ p.2)

/-- `buildPlan`. -/
def buildPlan (goal : String) : String :=
  let trimmed := String.mk (trimChars goal.data)
  let tasks := [
    "Clarify the true objective and define a measurable finish line for \"" ++
      trimmed ++ "\".",
    "List the constraints (time, budget, collaborators) so we can work within them.",
    "Break the work into 3-5 atomic actions that can each be completed in one sitting.",
    "Sequence the actions by impact and dependency, then block time for the first step.",
    "Create a feedback hook — what evidence will tell us we can adjust or stop?"]
  joinLines (numberLines tasks)

/-- `brainstormIdeas`. -/
def brainstormIdeas (topic : String) : String :=
  let angles := [
    "Unexpected partnerships or audiences",
    "Moments in the customer journey you can delight",
    "Small experiments you can ship this week",
    "Signals that prove the idea is working"]
  joinLines (angles.enum.map (fun p =>
    toString (p.1 + 1) ++ ". " ++ p.2 ++ " — specifically for \"" ++
      String.mk (trimChars topic.data) ++
      "\". Think about what would feel refreshing compared to the status quo."))

/-- The message roles accepted by the agent. -/
inductive AgentRole
  | system
  | user
  | assistant
deriving DecidableEq

/-- An `AgentMessage`. -/
structure AgentMessage where
  role : AgentRole
  content : String
deriving DecidableEq

/-- `arr.slice(-n)`: the last `min n (length)` elements. -/
def sliceLast (n : Nat) (l : List AgentMessage) : List AgentMessage :=
  l.drop (l.length - n)

/-- One step of `content.replace(/\s+/g, " ")`: each maximal whitespace run
becomes a single space; `prevSpace` records whether the previous character
belonged to a run already replaced. -/
def collapseWsAux : Bool → List Char → List Char
  | _, [] => []
  | prevSpace, c :: rest =>
    if isJsSpace c then
      if prevSpace then collapseWsAux true rest
      else ' ' :: collapseWsAux true rest
    else c :: collapseWsAux false rest

/-- `content.replace(/\s+/g, " ")`. -/
def collapseWs (cs : List Char) : List Char :=
  collapseWsAux false cs

/-- One bullet line of the summary. -/
def bulletLine (m : AgentMessage) : String :=
  let speaker := if m.role = AgentRole.assistant then "Radius" else "You"
  "- " ++ speaker ++ ": " ++ String.mk (trimChars (collapseWs m.content.data))

/-- The fixed text returned when there is nothing to summarize. -/
def noSummaryText : String :=
  "We\x27ve just started chatting, so there\x27s nothing to summarise yet."

/-- The header line of a rendered summary. -/
def summaryHeader : String :=
  "Here\x27s what we covered recently:"

/-- `summarizeConversation`: slice the last six messages, then drop the system
ones, then render. -/
def summarizeConversation (history : List AgentMessage) : String :=
  let lastFew := (sliceLast 6 history).filter (fun m => decide (m.role ≠ AgentRole.system))
  if lastFew.isEmpty then noSummaryText
  else joinLines (summaryHeader :: lastFew.map bulletLine)

/-- A scored task of `prioritiseTasks`, with its original position. -/
structure RankedTask where
  task : String
  score : Nat
  index : Nat
deriving DecidableEq

/-- Splitting on `/\n|,|;/`, accumulator-based. -/
def splitSepsAux (acc : List Char) : List Char → List (List Char)
  | [] => [acc.reverse]
  | c :: rest =>
    if c == '\n' || c == ',' || c == ';' then acc.reverse :: splitSepsAux [] rest
    else splitSepsAux (c :: acc) rest

/-- `input.split(/\n|,|;/)`. -/
def splitSeps (cs : List Char) : List (List Char) :=
  splitSepsAux [] cs

/-- The urgency heuristic: `/today|urgent|now|soon|asap/i` scores 3, else 1. -/
def urgencyScore (task : String) : Nat :=
  if containsCI task ("today") || containsCI task ("urgent") || containsCI task ("now") ||
      containsCI task ("soon") || containsCI task ("asap") then 3 else 1

/-- The impact heuristic: top tier scores 3, middle tier 2, else 1. -/
def impactScore (task : String) : Nat :=
  if containsCI task ("launch") || containsCI task ("client") || containsCI task ("revenue") ||
      containsCI task ("milestone") || containsCI task ("deadline") then 3
  else if containsCI task ("review") || containsCI task ("prep") || containsCI task ("draft") then 2
  else 1

/-- The candidate tasks: split, trim, and keep entries longer than 4
characters. -/
def taskCandidates (input : String) : List String :=
  ((splitSeps input.data).map (fun cs => String.mk (trimChars cs))).filter
    (fun line => decide (line.length > 4))

/-- The scored candidates, in input order, each tagged with its index. -/
def scoredTasks (input : String) : List RankedTask :=
  (taskCandidates input).enum.map (fun p =>
    { task := p.2, score := urgencyScore p.2 * 2 + impactScore p.2, index := p.1 })

/-- The comparator `(a, b) => b.score - a.score || a.index - b.index` as a
total order: `a` comes no later than `b` when it has the larger score, or an
equal score and no larger index.  Since the indices are pairwise distinct the
comparator never ties, so the sorted result is the unique ordering and agrees
with `Array.prototype.sort`. -/
def rankLE (a b : RankedTask) : Bool :=
  decide (b.score < a.score) || (decide (a.score = b.score) && decide (a.index ≤ b.index))

/-- `ranked.sort(...)`. -/
def rankTasks (input : String) : List RankedTask :=
  (scoredTasks input).mergeSort rankLE

/-- The instructive error text returned when no candidate tasks remain. -/
def noTasksText : String :=
  "Please provide a list of tasks separated by commas or new lines so I can rank them."

/-- `prioritiseTasks`. -/
def prioritiseTasks (input : String) : String :=
  let lines := taskCandidates input
  if lines.isEmpty then noTasksText
  else
    joinLines ((rankTasks input).enum.map (fun p =>
      toString (p.1 + 1) ++ ". " ++ p.2.task ++ " — priority score " ++ toString p.2.score))

/-- Trigger of the first knowledge-base entry: `/productivity|focus|deep work/i`. -/
def kbProductivityTest (s : String) : Bool :=
  containsCI s ("productivity") || containsCI s ("focus") || containsCI s ("deep work")

/-- Trigger of the second knowledge-base entry: `/marketing|campaign|launch/i`. -/
def kbMarketingTest (s : String) : Bool :=
  containsCI s ("marketing") || containsCI s ("campaign") || containsCI s ("launch")

/-- Trigger of the third knowledge-base entry: `/learning|study|exam/i`. -/
def kbLearningTest (s : String) : Bool :=
  containsCI s ("learning") || containsCI s ("study") || containsCI s ("exam")

/-- `KNOWLEDGE_BASE`: trigger test and canned response of each entry. -/
def KNOWLEDGE_BASE : List ((String → Bool) × String) := [
  (kbProductivityTest,
    "- Alternate 50 minutes of focus with 10-minute resets.\n- Decide the single critical output before you start.\n- Park distracting ideas in an inbox so you can return without losing flow."),
  (kbMarketingTest,
    "- Anchor on one memorable story per audience segment.\n- Repurpose high-performing assets into quick experiments on new channels.\n- Blend a fast feedback metric (CTR) with a slower health metric (share of conversation)."),
  (kbLearningTest,
    "- Begin with a spaced repetition sweep to surface weak spots.\n- Convert theories into applied micro-projects within 24 hours.\n- Teach the concept back to someone (or your notes) in plain language.")]

/-- `matchKnowledge`: response of the first entry whose trigger fires. -/
def matchKnowledge (input : String) : Option String :=
  (KNOWLEDGE_BASE.find? (fun e => e.1 input)).map (fun e => e.2)

/-- `followUpSuggestions`: the fixed suggestion list keyed by intent. -/
def followUpSuggestions : Intent → List String
  | .math => [
      "Compare this result with another scenario",
      "Ask me to turn the numbers into a short explanation",
      "Create a table of outcomes with different variables"]
  | .plan => [
      "Request a 7-day timeline for the plan",
      "Ask for the single most important milestone",
      "Turn the plan into calendar-friendly blocks"]
  | .brainstorm => [
      "Narrow ideas down to one standout concept",
      "Turn this concept into a user journey",
      "Draft a 3-sentence pitch for the top idea"]
  | .summarize => [
      "Extract action items from the summary",
      "Highlight risks or open questions",
      "Refine the summary for a stakeholder update"]
  | .prioritize => [
      "Group tasks by effort versus impact",
      "Schedule the top task with a realistic time slot",
      "Delegate or defer the lowest priorities"]
  | .insight => [
      "Ask me to dive deeper into one takeaway",
      "Layer in real constraints (time, budget, audience)",
      "Convert this into an actionable checklist"]

/-- An `AgentStep`. -/
structure AgentStep where
  title : String
  content : String
deriving DecidableEq

/-- An `AgentReply`. -/
structure AgentReply where
  role : AgentRole
  content : String
  steps : List AgentStep
  suggestions : List String
deriving DecidableEq

/-- The fixed idle reply returned when no user message exists. -/
def idleReply : AgentReply where
  role := .assistant
  content := "I\x27m ready whenever you are."
  steps := [{ title := "Status", content := "No user input detected, so I am idling." }]
  suggestions := [
    "Give me a goal with a tight deadline",
    "Ask me to condense a long message",
    "Share tasks and I will prioritise them"]

/-- The fixed fallback content of the `insight` branch when no knowledge entry
matches. -/
def fallbackContent : String :=
  "- Reflect your objective in one sentence to confirm I understood it correctly.\n" ++
    "- Identify one blocker or variable that worries you.\n" ++
    "- Ask for a concrete artefact: plan, outline, script, calculation, or critique."

/-- Content and method step of the selected generator, by intent. -/
def generatorResult (env : JsEnv) (messages : List AgentMessage) (userText : String) :
    Intent → String × AgentStep
  | .math =>
    (calculateExpression env userText,
      { title := "Tool",
        content := "Evaluated arithmetic expression using the safe math parser." })
  | .plan =>
    (buildPlan userText,
      { title := "Method",
        content := "Expanded request into a structured plan with five sequenced actions." })
  | .brainstorm =>
    (brainstormIdeas userText,
      { title := "Method",
        content := "Generated four contrasting idea angles to encourage divergent thinking." })
  | .summarize =>
    (summarizeConversation messages,
      { title := "Method",
        content := "Compressed the last exchanges into a concise bullet-point recap." })
  | .prioritize =>
    (prioritiseTasks userText,
      { title := "Method",
        content := "Ranked supplied tasks based on urgency and impact heuristics to highlight what to do first." })
  | .insight =>
    match matchKnowledge userText with
    | some insight =>
      (insight,
        { title := "Knowledge",
          content := "Matched the topic against the curated playbook and surfaced relevant tactics." })
    | none =>
      (fallbackContent,
        { title := "Fallback",
          content := "No direct tool matched, so I offered a structured prompt to refine the conversation." })

/-- `runAgent`: the dispatcher. -/
def runAgent (env : JsEnv) (messages : List AgentMessage) : AgentReply :=
  match messages.reverse.find? (fun m => decide (m.role = AgentRole.user)) with
  | none => idleReply
  | some last =>
    let userText := String.mk (trimChars last.content.data)
    let intent := classifyIntent userText
    let result := generatorResult env messages userText intent
    { role := .assistant
      content := result.1
      steps := [
        { title := "Intent Detection",
          content := "Input suggests a **" ++ intentName intent ++ "** style response." },
        result.2,
        { title := "Next Move",
          content := "Suggested follow-up paths to continue the session." }]
      suggestions := followUpSuggestions intent }

/-- The `messages` field of the parsed request body: absent (so `?? []` turns
it into the empty array), present but not an array, or an array. -/
inductive MessagesField
  | absent
  | notArray
  | present (l : List AgentMessage)

/-- A response body of the route handler: an error object or an agent reply. -/
inductive PostBody
  | errText (msg : String)
  | reply (r : AgentReply)

/-- The `POST` handler of `src/app/api/chat/route.ts`, as a function of the
outcome of `request.json()` (an `Except` models a thrown parse failure).
Returns the HTTP status code and the JSON body. -/
def POST (env : JsEnv) (parsed : Except String MessagesField) : Nat × PostBody :=
  match parsed with
  | .error _ => (500, .errText ("Unexpected agent error. Please try again."))
  | .ok .absent => (400, .errText ("Please provide at least one user message."))
  | .ok .notArray => (400, .errText ("Please provide at least one user message."))
  | .ok (.present []) => (400, .errText ("Please provide at least one user message."))
  | .ok (.present (m :: ms)) => (200, .reply (runAgent env (m :: ms)))

/-- A closed environment instance used by concrete witnesses: evaluation always
throws and the formatters return the empty string. -/
def defaultEnv : JsEnv where
  evalExpr := fun _ => Except.error ("")
  localeFmt := fun _ => ("")
  precisionFmt := fun _ => ("")

/-- The rendering that claim C2 describes (for comparison with the code): the
last six of the history's non-system messages, i.e. filter first, slice
second. -/
def C2_claimRender (h : List AgentMessage) : String :=
  let nonSystem := h.filter (fun m => decide (m.role ≠ AgentRole.system))
  let lastSix := nonSystem.drop (nonSystem.length - 6)
  if lastSix.isEmpty then noSummaryText
  else joinLines (summaryHeader :: lastSix.map bulletLine)

/-- A seven-message history — six user messages followed by one system
message — on which the slice-then-filter order is observable. -/
def sampleHistory : List AgentMessage := [
  { role := .user, content := "alpha one" },
  { role := .user, content := "alpha two" },
  { role := .user, content := "alpha three" },
  { role := .user, content := "alpha four" },
  { role := .user, content := "alpha five" },
  { role := .user, content := "alpha six" },
  { role := .system, content := "system note" }]

/-- The urgency factor as claim C4 words it: 3 when one of the keywords
today/urgent/now/soon/asap matches case-insensitively, and 1 otherwise. -/
def C4_claimUrgency (t : String) : Nat :=
  if containsCI t ("today") = true ∨ containsCI t ("urgent") = true ∨
      containsCI t ("now") = true ∨ containsCI t ("soon") = true ∨
      containsCI t ("asap") = true then 3 else 1

/-- The impact tiers as claim C4 words them: 3 for the top-tier keywords, 2
for the middle tier, and 1 otherwise. -/
def C4_claimImpact (t : String) : Nat :=
  if containsCI t ("launch") = true ∨ containsCI t ("client") = true ∨
      containsCI t ("revenue") = true ∨ containsCI t ("milestone") = true ∨
      containsCI t ("deadline") = true then 3
  else if containsCI t ("review") = true ∨ containsCI t ("prep") = true ∨
      containsCI t ("draft") = true then 2
  else 1

/-! ### General helper lemmas -/

theorem str_ne_empty_of_data_ne_nil {s : String} (h : s.data ≠ []) : s ≠ "" :=
  fun he => h (by rw [he])

theorem append_ne_empty_left (s t : String) (h : s ≠ "") : s ++ t ≠ "" := by
  apply str_ne_empty_of_data_ne_nil
  rw [String.data_append]
  intro hd
  rcases List.append_eq_nil.mp hd with ⟨h1, -⟩
  exact h (by apply String.ext_iff.mpr; rw [h1])

theorem append_ne_empty_right (s t : String) (h : t ≠ "") : s ++ t ≠ "" := by
  apply str_ne_empty_of_data_ne_nil
  rw [String.data_append]
  intro hd
  rcases List.append_eq_nil.mp hd with ⟨-, h2⟩
  exact h (by apply String.ext_iff.mpr; rw [h2])

theorem joinLines_cons_ne_empty (s : String) (rest : List String) (h : s ≠ "") :
    joinLines (s :: rest) ≠ "" := by
  cases rest with
  | nil => exact h
  | cons r rs => exact append_ne_empty_left _ _ (append_ne_empty_left _ _ h)

theorem numbered_line_ne_empty (k : Nat) (t : String) : toString (k + 1) ++ ". " ++ t ≠ "" :=
  append_ne_empty_left _ _ (append_ne_empty_right _ _ (by decide))

/-! ### C8: the route handler -/

/-- C8: for a parsed body whose `messages` field is missing, not an array, or
the empty array, `POST` answers 400 with the fixed validation error; for a
non-empty message array it answers 200 with the dispatcher reply; a thrown
failure answers 500 with the fixed error body. -/
theorem C8_post_handler (env : JsEnv) (parsed : Except String MessagesField) :
    ((parsed = .ok .absent ∨ parsed = .ok .notArray ∨ parsed = .ok (.present [])) →
        POST env parsed = (400, .errText ("Please provide at least one user message."))) ∧
      (∀ l, l ≠ [] → parsed = .ok (.present l) →
        POST env parsed = (200, .reply (runAgent env l))) ∧
      (∀ e, parsed = .error e →
        POST env parsed = (500, .errText ("Unexpected agent error. Please try again."))) := by
  refine ⟨?_, ?_, ?_⟩
  · rintro (rfl | rfl | rfl) <;> rfl
  · rintro l hl rfl
    cases l with
    | nil => exact absurd rfl hl
    | cons m ms => rfl
  · rintro e rfl
    rfl

/-- Witness for C8 at a concrete one-message body. -/
theorem C8_witness :
    POST defaultEnv (.ok (.present [{ role := AgentRole.user, content := "hello there" }])) =
      (200, .reply (runAgent defaultEnv [{ role := AgentRole.user, content := "hello there" }])) :=
  (C8_post_handler defaultEnv _).2.1 _ (by simp) rfl

/-! ### C6: the idle reply -/

/-- C6: on a history with no user-role message (in particular the empty one)
the dispatcher returns the fixed idle reply, which carries exactly 3
suggestions. -/
theorem C6_no_user_idle_reply (env : JsEnv) (msgs : List AgentMessage)
    (h : ∀ m ∈ msgs, m.role ≠ AgentRole.user) :
    runAgent env msgs = idleReply ∧ idleReply.suggestions.length = 3 := by
  constructor
  · unfold runAgent
    have hfind : msgs.reverse.find? (fun m => decide (m.role = AgentRole.user)) = none := by
      rw [List.find?_eq_none]
      intro x hx
      simp only [decide_eq_true_eq]
      exact h x (List.mem_reverse.mp hx)
    rw [hfind]
  · rfl

/-- Witness for C6 at the empty message list. -/
theorem C6_witness :
    runAgent defaultEnv [] = idleReply ∧ idleReply.suggestions.length = 3 :=
  C6_no_user_idle_reply defaultEnv [] (by intro m hm; exact absurd hm (List.not_mem_nil m))

/-! ### C9: every reply carries exactly 3 suggestions -/

/-- C9: the suggestion list attached by the dispatcher has length 3 on every
input, and the fixed intent-keyed suggestion table has length 3 for every
intent, the `insight` fallback included. -/
theorem C9_suggestions_length_three (env : JsEnv) (msgs : List AgentMessage) :
    (runAgent env msgs).suggestions.length = 3 ∧
      ∀ i : Intent, (followUpSuggestions i).length = 3 := by
  constructor
  · unfold runAgent
    cases hfind : msgs.reverse.find? (fun m => decide (m.role = AgentRole.user)) with
    | none => rfl
    | some last =>
      show (followUpSuggestions (classifyIntent (String.mk (trimChars last.content.data)))).length = 3
      cases classifyIntent (String.mk (trimChars last.content.data)) <;> rfl
  · intro i
    cases i <;> rfl


/-! ### Characterisation of `runAgent` by the user-message lookup -/

theorem runAgent_none (env : JsEnv) (msgs : List AgentMessage)
    (hfind : msgs.reverse.find? (fun m => decide (m.role = AgentRole.user)) = none) :
    runAgent env msgs = idleReply := by
  unfold runAgent
  rw [hfind]

theorem runAgent_some (env : JsEnv) (msgs : List AgentMessage) (last : AgentMessage)
    (hfind : msgs.reverse.find? (fun m => decide (m.role = AgentRole.user)) = some last) :
    runAgent env msgs =
      { role := .assistant
        content := (generatorResult env msgs (String.mk (trimChars last.content.data))
          (classifyIntent (String.mk (trimChars last.content.data)))).1
        steps := [
          { title := "Intent Detection"
            content := "Input suggests a **" ++
              intentName (classifyIntent (String.mk (trimChars last.content.data))) ++
              "** style response." },
          (generatorResult env msgs (String.mk (trimChars last.content.data))
            (classifyIntent (String.mk (trimChars last.content.data)))).2,
          { title := "Next Move"
            content := "Suggested follow-up paths to continue the session." }]
        suggestions := followUpSuggestions
          (classifyIntent (String.mk (trimChars last.content.data))) } := by
  unfold runAgent
  rw [hfind]


/-! ### Characterisation of `calculateExpression` by evaluation outcome -/

theorem calculateExpression_noExpr (env : JsEnv) (input : String)
    (h : cleanExpression input = none) :
    calculateExpression env input = errNoExpr := by
  unfold calculateExpression
  rw [h]

theorem calculateExpression_throw (env : JsEnv) (input e msg : String)
    (hc : cleanExpression input = some e) (he : env.evalExpr e = .error msg) :
    calculateExpression env input = errMalformed := by
  unfold calculateExpression
  simp only [hc, he]

theorem calculateExpression_finite (env : JsEnv) (input e : String) (q : ℚ)
    (hc : cleanExpression input = some e)
    (he : env.evalExpr e = .ok (.num (.finite q))) :
    calculateExpression env input =
      "The expression " ++ String.mk (trimChars e.data) ++ " evaluates to **" ++
        (if |q| ≥ 1000 then env.localeFmt q else env.precisionFmt q) ++ "**." := by
  unfold calculateExpression
  simp only [hc, he]

theorem calculateExpression_nonfinite (env : JsEnv) (input e : String) (v : JsValue)
    (hc : cleanExpression input = some e) (he : env.evalExpr e = .ok v)
    (hnf : ∀ q : ℚ, v ≠ .num (.finite q)) :
    calculateExpression env input = errNonNumeric := by
  unfold calculateExpression
  simp only [hc, he]

/-! ### Non-emptiness of every generator's output -/

theorem calculateExpression_ne_empty (env : JsEnv) (input : String) :
    calculateExpression env input ≠ "" := by
  cases hc : cleanExpression input with
  | none => rw [calculateExpression_noExpr env input hc]; decide
  | some e =>
    cases he : env.evalExpr e with
    | error msg => rw [calculateExpression_throw env input e msg hc he]; decide
    | ok v =>
      cases v with
      | other =>
        rw [calculateExpression_nonfinite env input e _ hc he (by intro q h; simp at h)]
        decide
      | num n =>
        cases n with
        | nan =>
          rw [calculateExpression_nonfinite env input e _ hc he (by intro q h; simp at h)]
          decide
        | inf b =>
          rw [calculateExpression_nonfinite env input e _ hc he (by intro q h; simp at h)]
          decide
        | finite q =>
          rw [calculateExpression_finite env input e q hc he]
          exact append_ne_empty_left _ _ (append_ne_empty_left _ _
            (append_ne_empty_left _ _ (append_ne_empty_left ("The expression ") _ (by decide))))

theorem buildPlan_ne_empty (goal : String) : buildPlan goal ≠ "" := by
  unfold buildPlan numberLines
  exact joinLines_cons_ne_empty _ _ (numbered_line_ne_empty 0 _)

theorem brainstormIdeas_ne_empty (topic : String) : brainstormIdeas topic ≠ "" := by
  unfold brainstormIdeas
  exact joinLines_cons_ne_empty _ _ (append_ne_empty_left _ _ (append_ne_empty_left _ _
    (append_ne_empty_left _ _ (append_ne_empty_left _ _ (numbered_line_ne_empty 0 _)))))

theorem summarizeConversation_nil (history : List AgentMessage)
    (h : (sliceLast 6 history).filter (fun m => decide (m.role ≠ AgentRole.system)) = []) :
    summarizeConversation history = noSummaryText := by
  unfold summarizeConversation
  simp only [h, List.isEmpty_nil, if_true]

theorem summarizeConversation_cons (history : List AgentMessage) (m : AgentMessage)
    (ms : List AgentMessage)
    (h : (sliceLast 6 history).filter (fun m => decide (m.role ≠ AgentRole.system)) = m :: ms) :
    summarizeConversation history = joinLines (summaryHeader :: (m :: ms).map bulletLine) := by
  unfold summarizeConversation
  simp only [h, List.isEmpty_cons, Bool.false_eq_true, if_false]

theorem summarizeConversation_ne_empty (history : List AgentMessage) :
    summarizeConversation history ≠ "" := by
  cases hfil : (sliceLast 6 history).filter (fun m => decide (m.role ≠ AgentRole.system)) with
  | nil => rw [summarizeConversation_nil history hfil]; decide
  | cons m ms =>
    rw [summarizeConversation_cons history m ms hfil]
    exact joinLines_cons_ne_empty _ _ (by decide)

theorem scoredTasks_length (input : String) :
    (scoredTasks input).length = (taskCandidates input).length := by
  unfold scoredTasks
  rw [List.length_map, List.enum_length]

theorem rankTasks_length (input : String) :
    (rankTasks input).length = (taskCandidates input).length := by
  unfold rankTasks
  rw [List.length_mergeSort, scoredTasks_length]

theorem prioritiseTasks_empty (input : String) (h : taskCandidates input = []) :
    prioritiseTasks input = noTasksText := by
  unfold prioritiseTasks
  simp [h]

theorem prioritiseTasks_render (input : String) (h : taskCandidates input ≠ []) :
    prioritiseTasks input = joinLines ((rankTasks input).enum.map (fun p =>
      toString (p.1 + 1) ++ ". " ++ p.2.task ++ " — priority score " ++ toString p.2.score)) := by
  unfold prioritiseTasks
  have hemp : (taskCandidates input).isEmpty = false := by
    rw [List.isEmpty_eq_false]
    exact h
  simp [hemp]

theorem prioritiseTasks_ne_empty (input : String) : prioritiseTasks input ≠ "" := by
  by_cases h : taskCandidates input = []
  · rw [prioritiseTasks_empty input h]
    decide
  · rw [prioritiseTasks_render input h]
    have hlen : (rankTasks input).length ≠ 0 := by
      rw [rankTasks_length]
      exact fun hl => h (List.length_eq_zero.mp hl)
    cases hr : rankTasks input with
    | nil => exact absurd (by rw [hr]; rfl) hlen
    | cons r rs =>
      rw [List.enum_cons]
      exact joinLines_cons_ne_empty _ _ (append_ne_empty_left _ _ (append_ne_empty_left _ _
        (append_ne_empty_left _ _ (append_ne_empty_right _ (". ") (by decide)))))

theorem matchKnowledge_cases (input : String) (s : String)
    (h : matchKnowledge input = some s) :
    ∃ e ∈ KNOWLEDGE_BASE, s = e.2 := by
  unfold matchKnowledge at h
  cases hf : KNOWLEDGE_BASE.find? (fun e => e.1 input) with
  | none => rw [hf] at h; exact absurd h (by simp)
  | some e =>
    rw [hf] at h
    exact ⟨e, List.mem_of_find?_eq_some hf, (Option.some.inj h).symm⟩

theorem matchKnowledge_ne_empty (input : String) (s : String)
    (h : matchKnowledge input = some s) : s ≠ "" := by
  obtain ⟨e, he, rfl⟩ := matchKnowledge_cases input s h
  simp only [KNOWLEDGE_BASE, List.mem_cons, List.not_mem_nil, or_false] at he
  rcases he with rfl | rfl | rfl <;> decide

theorem generatorResult_insight_none (env : JsEnv) (messages : List AgentMessage)
    (userText : String) (h : matchKnowledge userText = none) :
    (generatorResult env messages userText .insight).1 = fallbackContent := by
  simp only [generatorResult, h]

theorem generatorResult_insight_some (env : JsEnv) (messages : List AgentMessage)
    (userText s : String) (h : matchKnowledge userText = some s) :
    (generatorResult env messages userText .insight).1 = s := by
  simp only [generatorResult, h]

theorem generatorResult_content_ne_empty (env : JsEnv) (messages : List AgentMessage)
    (userText : String) (intent : Intent) :
    (generatorResult env messages userText intent).1 ≠ "" := by
  cases intent with
  | math => exact calculateExpression_ne_empty env userText
  | plan => exact buildPlan_ne_empty userText
  | brainstorm => exact brainstormIdeas_ne_empty userText
  | summarize => exact summarizeConversation_ne_empty messages
  | prioritize => exact prioritiseTasks_ne_empty userText
  | insight =>
    cases hk : matchKnowledge userText with
    | none =>
      rw [generatorResult_insight_none env messages userText hk]
      decide
    | some s =>
      rw [generatorResult_insight_some env messages userText s hk]
      exact matchKnowledge_ne_empty userText s hk

/-! ### C5: the dispatcher is total and structured -/

/-- C5: on every message list and every behaviour of the external evaluator
and formatters, `runAgent` returns a structured assistant reply: the role is
`assistant`, the content is non-empty guidance text, at least one trace step
is attached, and exactly 3 suggestions are attached.  All degenerate inputs
(no user message, empty goal text, empty task list) flow into one of the
generators' guidance messages; nothing escapes as a raised error. -/
theorem C5_runAgent_total (env : JsEnv) (msgs : List AgentMessage) :
    (runAgent env msgs).role = AgentRole.assistant ∧
      (runAgent env msgs).content ≠ "" ∧
      (runAgent env msgs).steps ≠ [] ∧
      (runAgent env msgs).suggestions.length = 3 := by
  cases hfind : msgs.reverse.find? (fun m => decide (m.role = AgentRole.user)) with
  | none =>
    rw [runAgent_none env msgs hfind]
    exact ⟨rfl, by decide, by decide, rfl⟩
  | some last =>
    rw [runAgent_some env msgs last hfind]
    refine ⟨rfl, ?_, List.cons_ne_nil _ _, ?_⟩
    · exact generatorResult_content_ne_empty env msgs _ _
    · show (followUpSuggestions (classifyIntent (String.mk (trimChars last.content.data)))).length = 3
      cases classifyIntent (String.mk (trimChars last.content.data)) <;> rfl

/-! ### C7 and C10: the expression evaluator's failure and formatting cases -/

theorem cleanExpression_eq (input : String) :
    cleanExpression input =
      (if (trimChars (sanitizeExpr input)).isEmpty then none
       else if !(sanitizeExpr input).any Char.isDigit then none
       else some (String.mk (sanitizeExpr input))) := rfl

theorem cleanExpression_none_iff (input : String) :
    cleanExpression input = none ↔
      trimChars (sanitizeExpr input) = [] ∨ ∀ c ∈ sanitizeExpr input, ¬ c.isDigit = true := by
  rw [cleanExpression_eq]
  split_ifs with h1 h2
  · exact iff_of_true rfl (Or.inl (List.isEmpty_iff.mp h1))
  · refine iff_of_true rfl (Or.inr ?_)
    have h2' : (sanitizeExpr input).any Char.isDigit = false := by simpa using h2
    exact List.any_eq_false.mp h2'
  · refine iff_of_false (by simp) ?_
    rintro (hl | hr)
    · exact h1 (List.isEmpty_iff.mpr hl)
    · exact h2 (by rw [List.any_eq_false.mpr hr]; decide)

/-- C7: the evaluator returns an explanatory message rather than a raised
error exactly when the sanitized string is blank, contains no digit, or the
underlying evaluation throws; for a finite numeric result it renders the
success template, choosing the locale formatter when the absolute value is at
least 1000 and the 8-significant-digit formatter otherwise. -/
theorem C7_calculate_cases (env : JsEnv) (input : String) :
    (cleanExpression input = none ↔
        trimChars (sanitizeExpr input) = [] ∨ ∀ c ∈ sanitizeExpr input, ¬ c.isDigit = true) ∧
      (cleanExpression input = none → calculateExpression env input = errNoExpr) ∧
      (∀ e msg, cleanExpression input = some e → env.evalExpr e = .error msg →
        calculateExpression env input = errMalformed) ∧
      (∀ e q, cleanExpression input = some e → env.evalExpr e = .ok (.num (.finite q)) →
        calculateExpression env input =
          "The expression " ++ String.mk (trimChars e.data) ++ " evaluates to **" ++
            (if |q| ≥ 1000 then env.localeFmt q else env.precisionFmt q) ++ "**.") :=
  ⟨cleanExpression_none_iff input,
   fun h => calculateExpression_noExpr env input h,
   fun e msg hc he => calculateExpression_throw env input e msg hc he,
   fun e q hc he => calculateExpression_finite env input e q hc he⟩

/-- Witness for C7: a blank-after-sanitizing input yields the no-expression
message, and a throwing evaluation yields the malformed message. -/
theorem C7_witness :
    calculateExpression defaultEnv "hello agent" = errNoExpr ∧
      calculateExpression defaultEnv "2+2" = errMalformed :=
  ⟨(C7_calculate_cases defaultEnv "hello agent").2.1 (by decide),
   (C7_calculate_cases defaultEnv "2+2").2.2.1 ("2+2") ("") (by decide) rfl⟩

/-- C10: when the evaluation result is a number that is not finite (NaN or an
infinity) or not a number at all, `calculateExpression` answers the fixed
non-numeric-result message; conversely, if that message is not produced the
result was a finite number, so the success formatting path is taken only for
finite numeric results. -/
theorem C10_nonfinite_unsupported (env : JsEnv) (input e : String) (v : JsValue)
    (hc : cleanExpression input = some e) (he : env.evalExpr e = .ok v) :
    ((∀ q : ℚ, v ≠ .num (.finite q)) → calculateExpression env input = errNonNumeric) ∧
      (calculateExpression env input ≠ errNonNumeric → ∃ q : ℚ, v = .num (.finite q)) := by
  constructor
  · exact fun hnf => calculateExpression_nonfinite env input e v hc he hnf
  · intro hne
    by_contra hno
    push_neg at hno
    exact hne (calculateExpression_nonfinite env input e v hc he hno)

/-- A closed environment whose evaluation always returns NaN, as produced by
JavaScript for expressions such as division overflow compositions. -/
def nanEnv : JsEnv where
  evalExpr := fun _ => Except.ok (JsValue.num JsNum.nan)
  localeFmt := fun _ => ("")
  precisionFmt := fun _ => ("")

/-- Witness for C10: a NaN evaluation of `1/0` yields the non-numeric-result
message. -/
theorem C10_witness :
    calculateExpression nanEnv "1/0" = errNonNumeric :=
  (C10_nonfinite_unsupported nanEnv "1/0" "1/0" (JsValue.num JsNum.nan) (by decide) rfl).1
    (by intro q hq; simp at hq)

/-! ### C1: correctness of the arithmetic-pattern scan -/

theorem isMathMid_of_isDigit {c : Char} (h : c.isDigit = true) : isMathMid c = true := by
  unfold isMathMid
  rw [h]
  rfl

theorem scanMid_iff (cs : List Char) (seen : Bool) :
    scanMid cs seen = true ↔
      ∃ mid d post, cs = mid ++ d :: post ∧ (∀ c ∈ mid, isMathMid c = true) ∧
        d.isDigit = true ∧ (seen = true ∨ mid ≠ []) := by
  induction cs generalizing seen with
  | nil =>
    constructor
    · intro h
      exact absurd h (by simp [scanMid])
    · rintro ⟨mid, d, post, hcs, -, -, -⟩
      exact ((List.cons_ne_nil d post) (List.append_eq_nil.mp hcs.symm).2).elim
  | cons c rest ih =>
    by_cases h1 : (seen && c.isDigit) = true
    · obtain ⟨hseen, hdig⟩ : seen = true ∧ c.isDigit = true := by simpa using h1
      constructor
      · intro _
        exact ⟨[], c, rest, rfl, fun x hx => absurd hx (List.not_mem_nil x), hdig, Or.inl hseen⟩
      · intro _
        unfold scanMid
        rw [if_pos h1]
    · have hstep : scanMid (c :: rest) seen =
          (if isMathMid c = true then scanMid rest true else false) := by
        rw [scanMid, if_neg h1]
      rw [hstep]
      by_cases h2 : isMathMid c = true
      · rw [if_pos h2, ih true]
        constructor
        · rintro ⟨mid, d, post, hrest, hmid, hd, -⟩
          refine ⟨c :: mid, d, post, by rw [hrest]; rfl, ?_, hd, Or.inr (List.cons_ne_nil c mid)⟩
          intro x hx
          rcases List.mem_cons.mp hx with rfl | hx'
          · exact h2
          · exact hmid x hx'
        · rintro ⟨mid, d, post, hcs, hmid, hd, hor⟩
          cases mid with
          | nil =>
            simp only [List.nil_append] at hcs
            injection hcs with hc hrest
            rcases hor with hseen | hne
            · exact absurd (by simp [hseen, hc, hd]) h1
            · exact absurd rfl hne
          | cons m ms =>
            injection hcs with hc hrest
            refine ⟨ms, d, post, hrest, ?_, hd, Or.inl rfl⟩
            intro x hx
            exact hmid x (List.mem_cons_of_mem m hx)
      · rw [if_neg h2]
        constructor
        · intro h
          exact absurd h (by simp)
        · rintro ⟨mid, d, post, hcs, hmid, hd, hor⟩
          cases mid with
          | nil =>
            simp only [List.nil_append] at hcs
            injection hcs with hc hrest
            exact (h2 (by rw [hc]; exact isMathMid_of_isDigit hd)).elim
          | cons m ms =>
            injection hcs with hc hrest
            exact (h2 (by rw [hc]; exact hmid m (List.mem_cons_self m ms))).elim

theorem mathPatternTest_iff (cs : List Char) :
    mathPatternTest cs = true ↔
      ∃ pre d1 mid d2 post, cs = pre ++ d1 :: (mid ++ d2 :: post) ∧
        d1.isDigit = true ∧ d2.isDigit = true ∧ mid ≠ [] ∧
        ∀ c ∈ mid, isMathMid c = true := by
  induction cs with
  | nil =>
    constructor
    · intro h
      exact absurd h (by simp [mathPatternTest])
    · rintro ⟨pre, d1, mid, d2, post, hcs, -, -, -, -⟩
      exact ((List.cons_ne_nil d1 _) (List.append_eq_nil.mp hcs.symm).2).elim
  | cons c rest ih =>
    constructor
    · intro h
      have h' : (c.isDigit = true ∧ scanMid rest false = true) ∨ mathPatternTest rest = true := by
        unfold mathPatternTest at h
        simpa using h
      rcases h' with ⟨hd, hscan⟩ | htail
      ·
        obtain ⟨mid, d, post, hrest, hmid, hdd, hor⟩ := (scanMid_iff rest false).mp hscan
        have hne : mid ≠ [] := by
          rcases hor with hfalse | hne
          · exact absurd hfalse (by simp)
          · exact hne
        exact ⟨[], c, mid, d, post, by rw [hrest]; rfl, hd, hdd, hne, hmid⟩
      · obtain ⟨pre, d1, mid, d2, post, hres, hd1, hd2, hne, hmid⟩ := ih.mp htail
        exact ⟨c :: pre, d1, mid, d2, post, by rw [hres]; rfl, hd1, hd2, hne, hmid⟩
    · rintro ⟨pre, d1, mid, d2, post, hcs, hd1, hd2, hne, hmid⟩
      unfold mathPatternTest
      rw [Bool.or_eq_true]
      cases pre with
      | nil =>
        left
        simp only [List.nil_append] at hcs
        injection hcs with hc hrest
        rw [Bool.and_eq_true]
        refine ⟨by rw [hc]; exact hd1, ?_⟩
        rw [hrest]
        exact (scanMid_iff _ false).mpr ⟨mid, d2, post, rfl, hmid, hd2, Or.inr hne⟩
      | cons p ps =>
        right
        injection hcs with hc hrest
        exact ih.mpr ⟨ps, d1, mid, d2, post, hrest, hd1, hd2, hne, hmid⟩

theorem classifyIntent_eq_math_iff (s : String) :
    classifyIntent s = Intent.math ↔ mathPatternTest s.data = true := by
  unfold classifyIntent
  split_ifs with h1 h2 h3 h4 h5 <;> simp_all

/-- C1 (amended): the classifier returns `math` exactly when the text contains
a digit, then one or more characters from the class
digits/`+`/`-`/`*`/`/`/`%`/`^`/`(`/`)`/`.`/whitespace, then another digit; in
particular an input with no digit is never classified `math`, but inputs whose
digits are joined only by further digits or whitespace (no operator) are. -/
theorem C1_math_classification (s : String) :
    (classifyIntent s = Intent.math ↔
        ∃ pre d1 mid d2 post, s.data = pre ++ d1 :: (mid ++ d2 :: post) ∧
          d1.isDigit = true ∧ d2.isDigit = true ∧ mid ≠ [] ∧
          ∀ c ∈ mid, isMathMid c = true) ∧
      ((∀ c ∈ s.data, ¬ c.isDigit = true) → classifyIntent s ≠ Intent.math) := by
  constructor
  · exact (classifyIntent_eq_math_iff s).trans (mathPatternTest_iff s.data)
  · intro hnd hm
    obtain ⟨pre, d1, mid, d2, post, hcs, hd1, -, -, -⟩ :=
      (mathPatternTest_iff s.data).mp ((classifyIntent_eq_math_iff s).mp hm)
    refine hnd d1 ?_ hd1
    rw [hcs]
    exact List.mem_append_right pre (List.mem_cons_self d1 _)

/-- Counterexample to C1 as stated: the input `123` contains digits but no
arithmetic operator character, yet it is classified `math` (the middle class
of the pattern admits digits themselves). -/
theorem C1_counterexample :
    classifyIntent "123" = Intent.math ∧
      (∃ c ∈ ("123").data, c.isDigit = true) ∧
      (∀ c ∈ ("123").data, ¬(c = '+' ∨ c = '-' ∨ c = '*' ∨ c = '/' ∨ c = '%' ∨ c = '^' ∨
        c = '(' ∨ c = ')')) := by
  decide

/-- Witness for C1 (amended), applied at a digit-free input. -/
theorem C1_witness : classifyIntent "hello world" ≠ Intent.math :=
  (C1_math_classification "hello world").2 (by decide)

/-! ### C2: what the summarizer actually renders -/

/-- Counterexample to C2 as stated: on a history of six user messages followed
by one system message, the code slices the last six messages first and only
then drops the system one, so it renders 5 bullets (omitting "alpha one"),
not the 6 bullets the claim (filter first, then take the last six) calls for. -/
theorem C2_counterexample :
    summarizeConversation sampleHistory ≠ C2_claimRender sampleHistory ∧
      (sampleHistory.filter (fun m => decide (m.role ≠ AgentRole.system))).length = 6 ∧
      summarizeConversation sampleHistory = joinLines [summaryHeader,
        "- You: alpha two", "- You: alpha three", "- You: alpha four",
        "- You: alpha five", "- You: alpha six"] := by
  refine ⟨by decide, by decide, by decide⟩

/-- C2 (amended): the generator renders one bullet for each non-system message
among the last 6 messages of the history — a suffix of the history's
non-system messages, of length at most 6 — oldest first; when the last 6
messages contain no non-system message it returns the fixed "nothing to
summarize" text. -/
theorem C2_summarize_last_six (h : List AgentMessage) :
    ((sliceLast 6 h).filter (fun m => decide (m.role ≠ AgentRole.system)) = [] →
        summarizeConversation h = noSummaryText) ∧
      (∀ m ms, (sliceLast 6 h).filter (fun m => decide (m.role ≠ AgentRole.system)) = m :: ms →
        summarizeConversation h = joinLines (summaryHeader :: (m :: ms).map bulletLine)) ∧
      ((sliceLast 6 h).filter (fun m => decide (m.role ≠ AgentRole.system))).length ≤ 6 ∧
      ((sliceLast 6 h).filter (fun m => decide (m.role ≠ AgentRole.system))) <:+
        (h.filter (fun m => decide (m.role ≠ AgentRole.system))) := by
  refine ⟨summarizeConversation_nil h, fun m ms hf => summarizeConversation_cons h m ms hf,
    ?_, ?_⟩
  · calc ((sliceLast 6 h).filter (fun m => decide (m.role ≠ AgentRole.system))).length
        ≤ (sliceLast 6 h).length := List.length_filter_le _ _
      _ ≤ 6 := by
        unfold sliceLast
        rw [List.length_drop]
        omega
  · refine ⟨(h.take (h.length - 6)).filter (fun m => decide (m.role ≠ AgentRole.system)), ?_⟩
    unfold sliceLast
    rw [← List.filter_append, List.take_append_drop]

/-- Witness for C2 (amended) at the empty history. -/
theorem C2_witness : summarizeConversation [] = noSummaryText :=
  (C2_summarize_last_six []).1 rfl

/-! ### C3: the priority ranking is a stable descending sort -/

theorem rankLE_total (a b : RankedTask) : (rankLE a b || rankLE b a) = true := by
  simp only [rankLE, Bool.or_eq_true, Bool.and_eq_true, decide_eq_true_eq]
  omega

theorem rankLE_trans (a b c : RankedTask) (hab : rankLE a b = true) (hbc : rankLE b c = true) :
    rankLE a c = true := by
  simp only [rankLE, Bool.or_eq_true, Bool.and_eq_true, decide_eq_true_eq] at hab hbc ⊢
  omega

theorem scoredTasks_map_index (input : String) :
    (scoredTasks input).map (fun r => r.index) = List.range (taskCandidates input).length := by
  unfold scoredTasks
  rw [List.map_map]
  exact List.enum_map_fst (taskCandidates input)

/-- C3: the ranked list is a permutation of the scored candidates in which
every earlier entry has a strictly higher score, or an equal score and an
earlier input position (stable descending sort); it is non-empty whenever a
candidate exists; and on the claim's example the urgent high-impact task ranks
first with a strictly higher score (9 against 4). -/
theorem C3_prioritise_stable_order (input : String) :
    (rankTasks input).Perm (scoredTasks input) ∧
      (rankTasks input).Pairwise (fun a b =>
        b.score < a.score ∨ (a.score = b.score ∧ a.index < b.index)) ∧
      (taskCandidates input ≠ [] → rankTasks input ≠ []) ∧
      rankTasks ("Draft email, Launch campaign today") = [
        { task := "Launch campaign today", score := 9, index := 1 },
        { task := "Draft email", score := 4, index := 0 }] := by
  have hperm : (rankTasks input).Perm (scoredTasks input) :=
    List.mergeSort_perm (scoredTasks input) rankLE
  refine ⟨hperm, ?_, ?_, ?_⟩
  · have hsorted : (rankTasks input).Pairwise (fun a b => rankLE a b = true) :=
      List.sorted_mergeSort rankLE_trans rankLE_total (scoredTasks input)
    have hnd : ((rankTasks input).map (fun r => r.index)).Nodup := by
      have hp : ((rankTasks input).map (fun r => r.index)).Perm
          ((scoredTasks input).map (fun r => r.index)) := hperm.map _
      rw [hp.nodup_iff, scoredTasks_map_index]
      exact List.nodup_range _
    have hpi : (rankTasks input).Pairwise (fun a b => a.index ≠ b.index) := by
      rw [List.Nodup, List.pairwise_map] at hnd
      exact hnd
    refine (hsorted.and hpi).imp ?_
    intro a b hab
    obtain ⟨hle, hne⟩ := hab
    simp only [rankLE, Bool.or_eq_true, Bool.and_eq_true, decide_eq_true_eq] at hle
    omega
  · intro hne hnil
    have hl := rankTasks_length input
    rw [hnil] at hl
    exact hne (List.length_eq_zero.mp hl.symm)
  · have hsc : scoredTasks ("Draft email, Launch campaign today") = [
        { task := "Draft email", score := 4, index := 0 },
        { task := "Launch campaign today", score := 9, index := 1 }] := by decide
    have hanti : ∀ a b : RankedTask,
        a ∈ rankTasks ("Draft email, Launch campaign today") →
        b ∈ [({ task := "Launch campaign today", score := 9, index := 1 } : RankedTask),
          { task := "Draft email", score := 4, index := 0 }] →
        rankLE a b = true → rankLE b a = true → a = b := by
      intro a b ha hb hab hba
      have ha' : a ∈ [({ task := "Draft email", score := 4, index := 0 } : RankedTask),
          { task := "Launch campaign today", score := 9, index := 1 }] := by
        rw [← hsc]
        exact ((List.mergeSort_perm _ rankLE).mem_iff).mp ha
      have ha2 : a = ({ task := "Draft email", score := 4, index := 0 } : RankedTask) ∨
          a = { task := "Launch campaign today", score := 9, index := 1 } := by
        simpa using ha'
      have hb2 : b = ({ task := "Launch campaign today", score := 9, index := 1 } : RankedTask) ∨
          b = { task := "Draft email", score := 4, index := 0 } := by
        simpa using hb
      rcases ha2 with rfl | rfl <;> rcases hb2 with rfl | rfl <;> revert hab hba <;> decide
    exact List.Perm.eq_of_sorted hanti
      (List.sorted_mergeSort rankLE_trans rankLE_total _)
      (by decide)
      ((List.mergeSort_perm _ rankLE).trans (by rw [hsc]; exact List.Perm.swap _ _ []))

/-- Witness for C3 at the claim's example input, whose candidate list is
non-empty. -/
theorem C3_witness : rankTasks ("Draft email, Launch campaign today") ≠ [] :=
  (C3_prioritise_stable_order ("Draft email, Launch campaign today")).2.2.1 (by decide)

/-! ### C4: splitting, filtering, and the scoring formula -/

/-- C4: the prioritizer splits its input on newlines, commas and semicolons,
discards trimmed entries of length at most 4, scores every remaining task as
2×urgency + impact with urgency in {1, 3} decided by the urgency keywords and
impact in {1, 2, 3} decided by the keyword tiers, and returns the instructive
error text when no candidate task remains. -/
theorem C4_prioritise_scoring (input : String) :
    (taskCandidates input =
        ((splitSeps input.data).map (fun cs => String.mk (trimChars cs))).filter
          (fun line => decide (¬ line.length ≤ 4))) ∧
      (∀ r ∈ scoredTasks input,
        r.score = 2 * C4_claimUrgency r.task + C4_claimImpact r.task ∧
        (C4_claimUrgency r.task = 1 ∨ C4_claimUrgency r.task = 3) ∧
        (C4_claimImpact r.task = 1 ∨ C4_claimImpact r.task = 2 ∨ C4_claimImpact r.task = 3)) ∧
      (taskCandidates input = [] → prioritiseTasks input = noTasksText) := by
  refine ⟨?_, ?_, prioritiseTasks_empty input⟩
  · unfold taskCandidates
    apply List.filter_congr
    intro x hx
    rw [decide_eq_decide]
    omega
  · intro r hr
    unfold scoredTasks at hr
    obtain ⟨p, hp, rfl⟩ := List.mem_map.mp hr
    have hu : urgencyScore p.2 = C4_claimUrgency p.2 := by
      unfold urgencyScore C4_claimUrgency
      exact if_congr (by simp [or_assoc]) rfl rfl
    have hi : impactScore p.2 = C4_claimImpact p.2 := by
      unfold impactScore C4_claimImpact
      exact if_congr (by simp [or_assoc]) rfl (if_congr (by simp [or_assoc]) rfl rfl)
    refine ⟨?_, ?_, ?_⟩
    · show urgencyScore p.2 * 2 + impactScore p.2 =
        2 * C4_claimUrgency p.2 + C4_claimImpact p.2
      rw [hu, hi, Nat.mul_comm]
    · show C4_claimUrgency p.2 = 1 ∨ C4_claimUrgency p.2 = 3
      unfold C4_claimUrgency
      split_ifs <;> omega
    · show C4_claimImpact p.2 = 1 ∨ C4_claimImpact p.2 = 2 ∨ C4_claimImpact p.2 = 3
      unfold C4_claimImpact
      split_ifs <;> omega

/-- Witness for C4 at the empty input, whose candidate list is empty. -/
theorem C4_witness : prioritiseTasks "" = noTasksText :=
  (C4_prioritise_scoring "").2.2 (by decide)
